import Mathlib

/-!
Shallow embedding of `promptify` (src/promptify/main.py), a CLI that walks a
directory tree, selects files by glob include/exclude patterns, concatenates
their contents with per-file headers, and reports metadata.  File-system
traversal is modelled by an explicit directory tree; file reads that raise
`UnicodeDecodeError` are modelled by an `Option String` content.
-/

namespace Promptify

/-- ASCII alphanumeric, the character class `[a-zA-Z0-9]` of the regexes in
`has_api_key`. -/
def isAsciiAlnum (c : Char) : Bool :=
  ((decide ('a' ≤ c) && decide (c ≤ 'z'))
    || (decide ('A' ≤ c) && decide (c ≤ 'Z'))
    || (decide ('0' ≤ c) && decide (c ≤ '9')))

/-- Whether the first `n` characters exist and are all ASCII alphanumeric:
an anchored match of the regex `[a-zA-Z0-9]{n}`. -/
def startsRun (n : Nat) (cs : List Char) : Bool :=
  decide (n ≤ cs.length) && (cs.take n).all isAsciiAlnum

/-- `re.findall(r"[a-zA-Z0-9]{n}", s)` is non-empty iff some suffix of `s`
starts with `n` alphanumeric characters. -/
def runFound (n : Nat) (cs : List Char) : Bool :=
  cs.tails.any (startsRun n)

/-- An unanchored match of a literal `lit` followed by `n` alphanumeric
characters (the `sk_`/`pk_` regexes of `has_api_key`). -/
def litRunFound (lit : List Char) (n : Nat) (cs : List Char) : Bool :=
  cs.tails.any (fun t => lit.isPrefixOf t && startsRun n (t.drop lit.length))

/-- `has_api_key` from main.py: any of the three regex patterns
`[a-zA-Z0-9]{32}`, `sk_[a-zA-Z0-9]{64}`, `pk_[a-zA-Z0-9]{64}` has a match. -/
def has_api_key (code : String) : Bool :=
  runFound 32 code.data
    || litRunFound ['s', 'k', '_'] 64 code.data
    || litRunFound ['p', 'k', '_'] 64 code.data

/-- Python's `needle in hay` substring test. -/
def containsSubstr (needle hay : String) : Bool :=
  hay.data.tails.any (fun t => needle.data.isPrefixOf t)

/-- Membership in a glob bracket expression body (the characters strictly
between `[` and `]`), with `a-b` ranges as in `fnmatch.translate`. -/
def inBracket : List Char → Char → Bool
  | a :: '-' :: b :: rest, c =>
      (decide (a ≤ c) && decide (c ≤ b)) || inBracket rest c
  | a :: rest, c => a == c || inBracket rest c
  | [], _ => false

/-- Scan a bracket expression for its closing `]`, returning the body and the
remainder of the pattern.  The first body character may itself be `]`. -/
def splitBracket : List Char → Option (List Char × List Char)
  | [] => none
  | c :: rest =>
    match splitBracket rest with
    | some (body, rem) => if c == ']' then some ([], rest) else some (c :: body, rem)
    | none => if c == ']' then some ([], rest) else none

/-- Core glob matcher for `fnmatch.fnmatch` on POSIX: `*` matches any
sequence (including `/`), `?` any single character, `[...]`/`[!...]` bracket
expressions, everything else literally; the whole string must match.  The
`fuel` argument only forces structural termination: every step strictly
shrinks `ps.length + cs.length`, so any fuel above that bound is enough and
the fuel-exhausted branch is unreachable from `globMatch`. -/
def globMatchAux : Nat → List Char → List Char → Bool
  | 0, _, _ => false
  | _ + 1, [], [] => true
  | _ + 1, [], _ :: _ => false
  | fuel + 1, '*' :: ps, cs =>
      globMatchAux fuel ps cs ||
        (match cs with
         | [] => false
         | _ :: cs' => globMatchAux fuel ('*' :: ps) cs')
  | fuel + 1, '?' :: ps, _ :: cs => globMatchAux fuel ps cs
  | _ + 1, '?' :: _, [] => false
  | fuel + 1, '[' :: ps, c :: cs =>
      (match ps with
       | '!' :: ps' =>
         (match splitBracket ps' with
          | some (body, rem) => !inBracket body c && globMatchAux fuel rem cs
          | none => false)
       | _ =>
         (match splitBracket ps with
          | some (body, rem) => inBracket body c && globMatchAux fuel rem cs
          | none => false))
  | _ + 1, '[' :: _, [] => false
  | fuel + 1, p :: ps, c :: cs => p == c && globMatchAux fuel ps cs
  | _ + 1, _ :: _, [] => false

/-- Glob matching with adequate fuel. -/
def globMatch (ps cs : List Char) : Bool :=
  globMatchAux (ps.length + cs.length + 1) ps cs

/-- `fnmatch.fnmatch(name, pat)` (POSIX: `normcase` is the identity). -/
def fnmatch (name pat : String) : Bool :=
  globMatch pat.data name.data

/-- `default_excludes` from main.py. -/
def default_excludes : List String :=
  ["*.pyc", "*egg-info*", "*tmp*", ".DS_Store", ".env*"]

/-- The four parameters of `aggregate_file_contents`. -/
structure Config where
  include_files : List String
  exclude_files : List String
  ignore_empty_files : Bool
  no_skip : Bool
  deriving Repr, DecidableEq

/-- The include/exclude test of `aggregate_file_contents` (lines 35-40): at
least one include pattern matches and no exclude or default-exclude pattern
matches the relative path. -/
def matchesFilter (cfg : Config) (rel : String) : Bool :=
  cfg.include_files.any (fun p => fnmatch rel p)
    && !((cfg.exclude_files ++ default_excludes).any (fun p => fnmatch rel p))

/-- Python `chr.isspace()` restricted to the ASCII whitespace characters. -/
def pyIsSpace (c : Char) : Bool :=
  c == ' ' || c == '\t' || c == '\n' || c == '\x0d' || c == '\x0b' || c == '\x0c'

/-- Python `not content.strip()`: every character is whitespace. -/
def isBlank (s : String) : Bool :=
  s.data.all pyIsSpace

/-- A file as seen by a directory entry: its name and its content, `none`
standing for bytes that fail UTF-8 decoding (`UnicodeDecodeError`). -/
structure FileEntry where
  name : String
  content : Option String
  deriving Repr, DecidableEq

/-- A directory tree: its direct file entries and its named subdirectories. -/
inductive FTree : Type where
  | dir (files : List FileEntry) (subs : List (String × FTree)) : FTree
  deriving Repr

/-- A file produced by the walk: relative path, bare file name, content. -/
structure WalkFile where
  rel : String
  name : String
  content : Option String
  deriving Repr, DecidableEq

/-- `os.path.relpath(os.path.join(root, file), current_dir)` for a walk
rooted at the current directory. -/
def joinRel (pfx n : String) : String :=
  if pfx == "" then n else pfx ++ "/" ++ n

/-- Whether a directory's own file list contains the marker `pyvenv.cfg`. -/
def hasMarker : FTree → Bool
  | .dir fs _ => fs.any (fun f => f.name == "pyvenv.cfg")

mutual

/-- `os.walk` (top-down) combined with the pruning in lines 26-29 of
main.py: a directory containing `pyvenv.cfg` yields nothing, neither its own
files nor anything beneath it. -/
def walk (pfx : String) : FTree → List WalkFile
  | .dir fs subs =>
    if fs.any (fun f => f.name == "pyvenv.cfg") then []
    else
      fs.map (fun f => ⟨joinRel pfx f.name, f.name, f.content⟩)
        ++ walkSubs pfx subs

/-- Walk every subdirectory in order. -/
def walkSubs (pfx : String) : List (String × FTree) → List WalkFile
  | [] => []
  | (n, t) :: rest => walk (joinRel pfx n) t ++ walkSubs pfx rest

end

/-- The string literal `"API_KEY"` tested by `in` on line 53 of main.py. -/
def apiKeyLit : String := "API_KEY"

/-- The suffix appended to a skipped file's relative path (lines 57-60). -/
def skipMsg : String :=
  " (Potential API key found. Run with --no-skip option to include)"

/-- The per-file header block `f"---\nFile: \x60{relative_path}\x60\n"`. -/
def mkHeader (rel : String) : String :=
  "---\nFile: `" ++ rel ++ "`\n"

/-- `code_extensions` from main.py (lines 66-78). -/
def code_extensions : List String :=
  [".py", ".json", ".js", ".html", ".css", ".java", ".cpp", ".c", ".h",
   ".yaml", ".yml"]

/-- The content block appended for an included file: fenced in triple
backticks when the file name ends with a recognized extension, raw
otherwise (lines 79-82). -/
def payloadOf (name content : String) : String :=
  if code_extensions.any (fun ext => name.endsWith ext) then
    "```\n" ++ content ++ "\n```"
  else content

/-- What one iteration of the inner loop of `aggregate_file_contents`
appends to `result`, `files_included` and `files_skipped` for a single
walked file, mirroring lines 31-84 of main.py. -/
def contribution (cfg : Config) (w : WalkFile) :
    List String × List String × List String :=
  if matchesFilter cfg w.rel then
    match w.content with
    | none => ([], [], [])
    | some c =>
      if cfg.ignore_empty_files && isBlank c then ([], [], [])
      else if containsSubstr apiKeyLit c && has_api_key c && !cfg.no_skip then
        ([], [], [w.rel ++ skipMsg])
      else
        ([mkHeader w.rel, payloadOf w.name c, ""], [w.rel], [])
  else ([], [], [])

/-- The whole loop of `aggregate_file_contents` over the walked files: the
three accumulators grow by each file's contribution in walk order. -/
def processList (cfg : Config) : List WalkFile →
    List String × List String × List String
  | [] => ([], [], [])
  | w :: rest =>
    let rec1 := contribution cfg w
    let rec2 := processList cfg rest
    (rec1.1 ++ rec2.1, rec1.2.1 ++ rec2.2.1, rec1.2.2 ++ rec2.2.2)

/-- `aggregate_file_contents`: walk the tree from the current directory,
process every file, and return `"\n".join(result)` with the included and
skipped lists. -/
def aggregate_file_contents (cfg : Config) (t : FTree) :
    String × List String × List String :=
  let p := processList cfg (walk "" t)
  (String.intercalate "\n" p.1, p.2.1, p.2.2)

/-- Non-whitespace character count of `get_metadata`:
`sum(not chr.isspace() for chr in content)`. -/
def charCount (content : String) : Nat :=
  (content.data.map (fun c => if pyIsSpace c then 0 else 1)).sum

/-- A cell of the metadata table handed to `tabulate`: a label or a count. -/
inductive Cell : Type where
  | str (s : String) : Cell
  | num (n : Nat) : Cell
  deriving Repr, DecidableEq

/-- The metadata table of `get_metadata` (lines 89-99), parametrized by the
external tokenizer
`TokenCount(model_name="gpt-3.5-turbo").num_tokens_from_string`. -/
def get_metadata (tokenizer : String → Nat) (content : String) :
    List (List Cell) :=
  [[.str "Tokenizer", .str "openai/tiktoken"],
   [.str "Token Count", .num (tokenizer content)],
   [.str "Character Count", .num (charCount content)]]

/-- Profile record saved by `save_profile` (lines 147-156). -/
structure Profile where
  include_patterns : List String
  exclude_patterns : List String
  ignore_empty : Bool
  no_skip : Bool
  deriving Repr, DecidableEq

/-- `f".promptify/\x7bprofile_name\x7d.profile"`. -/
def profileFilename (name : String) : String :=
  ".promptify/" ++ name ++ ".profile"

/-- `save_profile`: write the YAML document for the profile at its file
name.  The profile store models the `.promptify` directory as a map from
file name to parsed document; the YAML serialization layer
(`yaml.dump`/`yaml.safe_load` of this fixed record shape) is modelled as
the identity on `Profile`. -/
def save_profile (store : List (String × Profile)) (name : String)
    (p : Profile) : List (String × Profile) :=
  (profileFilename name, p) :: store

/-- `load_profile`: read and parse the profile file, `none` when the file
does not exist (`FileNotFoundError`). -/
def load_profile (store : List (String × Profile)) (name : String) :
    Option Profile :=
  store.lookup (profileFilename name)

/-- Characterization of the walked files that reach the `files_included`
branch of the loop: the filter matches, the content decodes, and neither
the empty-file drop nor the secret skip fires. -/
def includedB (cfg : Config) (w : WalkFile) : Bool :=
  matchesFilter cfg w.rel &&
    (match w.content with
     | none => false
     | some c =>
       !(cfg.ignore_empty_files && isBlank c)
         && !(containsSubstr apiKeyLit c && has_api_key c && !cfg.no_skip))

/-- Characterization of the walked files that reach the `files_skipped`
branch of the loop: the filter matches, the content decodes and survives the
empty-file drop, and the secret test fires with `no_skip` unset. -/
def secretSkipB (cfg : Config) (w : WalkFile) : Bool :=
  matchesFilter cfg w.rel &&
    (match w.content with
     | none => false
     | some c =>
       !(cfg.ignore_empty_files && isBlank c)
         && (containsSubstr apiKeyLit c && has_api_key c && !cfg.no_skip))

/-- The three result blocks an included file contributes: header, payload,
separator line. -/
def blockOf (w : WalkFile) : List String :=
  match w.content with
  | some c => [mkHeader w.rel, payloadOf w.name c, ""]
  | none => []

/-- Where the aggregated text ended up after `main` finishes delivery. -/
structure Delivery where
  clipboard : Option String
  file_out : Option (String × String)
  deriving Repr, DecidableEq

/-- The delivery logic of `main` (lines 274-296): always try the clipboard;
write to the requested output file when `--output` was given; otherwise
write the fallback file `output.promptify` only when the clipboard failed.
`clipOk` and `writeOk` say whether `pyperclip.copy` and the file write
succeed. -/
def deliver (output : String) (clipOk writeOk : Bool)
    (outArg : Option String) : Delivery :=
  { clipboard := if clipOk then some output else none
    file_out :=
      match outArg with
      | some p => if writeOk then some (p, output) else none
      | none =>
        if clipOk then none
        else if writeOk then some ("output.promptify", output) else none }

/-! ## Helper lemmas -/

@[simp]
theorem processList_nil (cfg : Config) : processList cfg [] = ([], [], []) :=
  rfl

@[simp]
theorem processList_cons (cfg : Config) (w : WalkFile) (l : List WalkFile) :
    processList cfg (w :: l) =
      ((contribution cfg w).1 ++ (processList cfg l).1,
       (contribution cfg w).2.1 ++ (processList cfg l).2.1,
       (contribution cfg w).2.2 ++ (processList cfg l).2.2) :=
  rfl

theorem processList_append (cfg : Config) (l1 l2 : List WalkFile) :
    processList cfg (l1 ++ l2) =
      ((processList cfg l1).1 ++ (processList cfg l2).1,
       (processList cfg l1).2.1 ++ (processList cfg l2).2.1,
       (processList cfg l1).2.2 ++ (processList cfg l2).2.2) := by
  induction l1 with
  | nil => simp
  | cons w rest ih => simp [ih]

theorem walkSubs_append (pfx : String) (l1 l2 : List (String × FTree)) :
    walkSubs pfx (l1 ++ l2) = walkSubs pfx l1 ++ walkSubs pfx l2 := by
  induction l1 with
  | nil => simp [walkSubs]
  | cons p rest ih =>
    obtain ⟨n, t⟩ := p
    simp [walkSubs, ih]

theorem walk_of_marker (pfx : String) (t : FTree) (h : hasMarker t = true) :
    walk pfx t = [] := by
  obtain ⟨fs, subs⟩ := t
  simp only [hasMarker] at h
  simp [walk, h]

/-- `contribution` in terms of the two branch characterizations. -/
theorem contribution_eq (cfg : Config) (w : WalkFile) :
    contribution cfg w =
      if includedB cfg w then
        ([mkHeader w.rel, payloadOf w.name (w.content.getD ""), ""],
         [w.rel], [])
      else if secretSkipB cfg w then ([], [], [w.rel ++ skipMsg])
      else ([], [], []) := by
  obtain ⟨rel, name, content⟩ := w
  simp only [contribution, includedB, secretSkipB]
  cases hm : matchesFilter cfg rel
  · simp
  · cases content with
    | none => simp
    | some c =>
      cases he : cfg.ignore_empty_files && isBlank c
      · cases hs : containsSubstr apiKeyLit c && has_api_key c && !cfg.no_skip
        · simp [he, hs]
        · simp [he, hs]
      · simp [he]

theorem not_included_and_secretSkip (cfg : Config) (w : WalkFile) :
    ¬(includedB cfg w = true ∧ secretSkipB cfg w = true) := by
  rintro ⟨hi, hs⟩
  obtain ⟨rel, name, content⟩ := w
  simp only [includedB, Bool.and_eq_true] at hi
  simp only [secretSkipB, Bool.and_eq_true] at hs
  cases content with
  | none => exact absurd hi.2 (by simp)
  | some c =>
    simp only [Bool.and_eq_true, Bool.not_eq_true'] at hi hs
    obtain ⟨⟨h1, h2⟩, h3⟩ := hs.2.2
    have hcontra := hi.2.2
    simp [h1, h2, h3] at hcontra

theorem processList_inc_eq (cfg : Config) (l : List WalkFile) :
    (processList cfg l).2.1 =
      (l.filter (includedB cfg)).map (fun w => w.rel) := by
  induction l with
  | nil => simp
  | cons w rest ih =>
    rw [processList_cons, contribution_eq]
    by_cases h : includedB cfg w = true
    · simp [h, ih]
    · by_cases h2 : secretSkipB cfg w = true <;>
        simp [h, h2, ih, List.filter_cons]

theorem processList_skp_eq (cfg : Config) (l : List WalkFile) :
    (processList cfg l).2.2 =
      (l.filter (secretSkipB cfg)).map (fun w => w.rel ++ skipMsg) := by
  induction l with
  | nil => simp
  | cons w rest ih =>
    rw [processList_cons, contribution_eq]
    by_cases h : includedB cfg w = true
    · have hns : ¬(secretSkipB cfg w = true) := fun hs =>
        not_included_and_secretSkip cfg w ⟨h, hs⟩
      simp [h, hns, ih, List.filter_cons]
    · by_cases h2 : secretSkipB cfg w = true <;>
        simp [h, h2, ih, List.filter_cons]

theorem processList_res_eq (cfg : Config) (l : List WalkFile) :
    (processList cfg l).1 =
      (l.filter (includedB cfg)).flatMap blockOf := by
  induction l with
  | nil => simp
  | cons w rest ih =>
    rw [processList_cons, contribution_eq]
    by_cases h : includedB cfg w = true
    · have hc : ∃ c, w.content = some c := by
        obtain ⟨rel, name, content⟩ := w
        cases content with
        | none => simp [includedB] at h
        | some c => exact ⟨c, rfl⟩
      obtain ⟨c, hc⟩ := hc
      simp [h, ih, List.filter_cons, blockOf, hc]
    · by_cases h2 : secretSkipB cfg w = true <;>
        simp [h, h2, ih, List.filter_cons]

theorem charCount_eq_filter (s : String) :
    charCount s = (s.data.filter (fun c => !pyIsSpace c)).length := by
  unfold charCount
  induction s.data with
  | nil => rfl
  | cons c cs ih =>
    by_cases h : pyIsSpace c = true
    · simp [List.filter_cons, h, ih]
    · simp [List.filter_cons, h, ih]
      omega

/-- Wrapping a string in triple-backtick fences changes it: the lengths
differ by eight. -/
theorem fence_ne (c : String) : ("```\n" ++ c ++ "\n```") ≠ c := by
  intro h
  have hlen := congrArg String.length h
  rw [String.length_append, String.length_append] at hlen
  have h1 : ("```\n" : String).length = 4 := rfl
  have h2 : ("\n```" : String).length = 4 := rfl
  rw [h1, h2] at hlen
  omega

/-! ## Claim theorems -/

/-- C5: saving a configuration (include patterns, exclude patterns,
ignore-empty flag, force-include flag) under a profile name and loading
that name back yields the same four values: the round-trip is the identity
on the configuration. -/
theorem save_load_roundtrip (store : List (String × Profile)) (name : String)
    (p : Profile) : load_profile (save_profile store name p) name = some p := by
  simp [load_profile, save_profile, List.lookup]

/-- C6: the metadata table reports, for the aggregated text, a character
count equal to the number of non-whitespace characters of the text and a
token count computed by the tokenizer over that same text. -/
theorem metadata_counts (tokenizer : String → Nat) (s : String) :
    get_metadata tokenizer s =
      [[Cell.str "Tokenizer", Cell.str "openai/tiktoken"],
       [Cell.str "Token Count", Cell.num (tokenizer s)],
       [Cell.str "Character Count",
        Cell.num ((s.data.filter (fun c => !pyIsSpace c)).length)]] := by
  simp [get_metadata, charCount_eq_filter]

/-- C7: the aggregated text goes to the clipboard; when the clipboard fails
and no output file was requested, the same text goes to the fallback file
`output.promptify`; in every run at least one channel carries the full text
unless both the clipboard and the file write fail. -/
theorem delivery_channels (out : String) (clipOk writeOk : Bool)
    (outArg : Option String) :
    (clipOk = true → (deliver out clipOk writeOk outArg).clipboard = some out)
    ∧ (clipOk = false → outArg = none → writeOk = true →
        (deliver out clipOk writeOk outArg).file_out
          = some ("output.promptify", out))
    ∧ ((deliver out clipOk writeOk outArg).clipboard = some out
        ∨ (∃ p, (deliver out clipOk writeOk outArg).file_out = some (p, out))
        ∨ (clipOk = false ∧ writeOk = false)) := by
  cases clipOk <;> cases writeOk <;> cases outArg <;> simp [deliver]

/-- Witness for `delivery_channels` at concrete inputs. -/
theorem delivery_channels_witness :
    (deliver "t" true true none).clipboard = some "t"
    ∧ (deliver "t" false true none).file_out
        = some ("output.promptify", "t") :=
  ⟨(delivery_channels "t" true true none).1 rfl,
   (delivery_channels "t" false true none).2.1 rfl rfl rfl⟩

/-- C9: a walked file that matches the include/exclude filter but whose
bytes do not decode as UTF-8 is silently dropped: removing it from the walk
changes neither the result blocks, the included list, nor the skipped
list. -/
theorem undecodable_silently_dropped (cfg : Config) (l1 l2 : List WalkFile)
    (w : WalkFile) (hc : w.content = none)
    (hm : matchesFilter cfg w.rel = true) :
    processList cfg (l1 ++ w :: l2) = processList cfg (l1 ++ l2) := by
  have hw : contribution cfg w = ([], [], []) := by
    simp [contribution, hm, hc]
  rw [processList_append, processList_append, processList_cons, hw]
  simp

/-- Witness for `undecodable_silently_dropped` at a concrete input. -/
theorem undecodable_silently_dropped_witness :
    processList ⟨["*"], [], false, false⟩
        ([] ++ (⟨"b.bin", "b.bin", none⟩ : WalkFile) :: [])
      = processList ⟨["*"], [], false, false⟩ ([] ++ []) :=
  undecodable_silently_dropped ⟨["*"], [], false, false⟩ [] []
    ⟨"b.bin", "b.bin", none⟩ rfl (by decide)

/-- C3: a directory whose file list contains the marker `pyvenv.cfg`
contributes nothing to the walk: the subtree itself yields no files, a
parent walk is unchanged when the marked subtree is removed, and the
aggregation (inclusion and skipping alike) never sees any file beneath
it. -/
theorem marker_halts_descent (cfg : Config) (pfx : String)
    (fs : List FileEntry) (l1 l2 : List (String × FTree)) (n : String)
    (t : FTree) (h : hasMarker t = true) :
    walk pfx t = []
    ∧ walk pfx (.dir fs (l1 ++ (n, t) :: l2)) = walk pfx (.dir fs (l1 ++ l2))
    ∧ aggregate_file_contents cfg (.dir fs (l1 ++ (n, t) :: l2))
        = aggregate_file_contents cfg (.dir fs (l1 ++ l2)) := by
  have hw : ∀ q : String, walk q t = [] := fun q => walk_of_marker q t h
  have hsub : ∀ q : String,
      walk q (.dir fs (l1 ++ (n, t) :: l2)) = walk q (.dir fs (l1 ++ l2)) := by
    intro q
    rw [walk, walk]
    by_cases hmk : fs.any (fun f => f.name == "pyvenv.cfg") = true
    · simp [hmk]
    · simp only [hmk, walkSubs_append, walkSubs, hw]
      simp
  exact ⟨hw pfx, hsub pfx,
    by simp [aggregate_file_contents, hsub ""]⟩

/-- Witness for `marker_halts_descent` at a concrete input. -/
theorem marker_halts_descent_witness :
    walk "" (.dir [⟨"pyvenv.cfg", some ""⟩] []) = []
    ∧ walk "" (.dir [⟨"a.py", some "x"⟩]
        ([] ++ ("v", .dir [⟨"pyvenv.cfg", some ""⟩] []) :: []))
        = walk "" (.dir [⟨"a.py", some "x"⟩] ([] ++ []))
    ∧ aggregate_file_contents ⟨["*"], [], false, false⟩
        (.dir [⟨"a.py", some "x"⟩]
          ([] ++ ("v", .dir [⟨"pyvenv.cfg", some ""⟩] []) :: []))
        = aggregate_file_contents ⟨["*"], [], false, false⟩
            (.dir [⟨"a.py", some "x"⟩] ([] ++ [])) :=
  marker_halts_descent ⟨["*"], [], false, false⟩ "" [⟨"a.py", some "x"⟩]
    [] [] "v" (.dir [⟨"pyvenv.cfg", some ""⟩] []) (by decide)

/-- C1 as stated is false: a walked file can match an include pattern and no
exclude pattern and still be absent from the output (here its bytes fail
UTF-8 decoding). -/
theorem included_iff_filter_cex :
    matchesFilter ⟨["*"], [], false, false⟩ "b.bin" = true
    ∧ (processList ⟨["*"], [], false, false⟩
        [⟨"b.bin", "b.bin", none⟩]).2.1 = [] := by
  decide

/-- C1 (amended): for a walked file whose content decodes as UTF-8 and
passes the content checks (the empty-file drop and the secret skip do not
fire), the file is included in the aggregated output exactly when its
relative path matches at least one include pattern; and whenever any
user-supplied or default exclude pattern matches the path, the exclude wins
and the filter rejects the file. -/
theorem included_iff_filter (cfg : Config) (l1 l2 : List WalkFile)
    (w : WalkFile) (c : String) (hc : w.content = some c)
    (hne : (cfg.ignore_empty_files && isBlank c) = false)
    (hns : (containsSubstr apiKeyLit c && has_api_key c && !cfg.no_skip)
        = false) :
    ((processList cfg (l1 ++ w :: l2)).2.1
      = (processList cfg l1).2.1
          ++ (if matchesFilter cfg w.rel then [w.rel] else [])
          ++ (processList cfg l2).2.1)
    ∧ (∀ p ∈ cfg.exclude_files ++ default_excludes,
        fnmatch w.rel p = true → matchesFilter cfg w.rel = false) := by
  constructor
  · have hw : (contribution cfg w).2.1
        = if matchesFilter cfg w.rel then [w.rel] else [] := by
      by_cases hm : matchesFilter cfg w.rel = true
      · simp [contribution, hm, hc, hne, hns]
      · simp only [Bool.not_eq_true] at hm
        simp [contribution, hm]
    rw [processList_append, processList_cons]
    simp [hw]
  · intro p hp hf
    have hex : (cfg.exclude_files ++ default_excludes).any
        (fun q => fnmatch w.rel q) = true :=
      List.any_eq_true.mpr ⟨p, hp, hf⟩
    simp [matchesFilter, hex]

/-- Witness for `included_iff_filter` at a concrete input. -/
theorem included_iff_filter_witness :
    ((processList ⟨["*"], [], false, false⟩
        ([] ++ (⟨"a.py", "a.py", some "hi"⟩ : WalkFile) :: [])).2.1
      = (processList ⟨["*"], [], false, false⟩ []).2.1
          ++ (if matchesFilter ⟨["*"], [], false, false⟩ "a.py"
              then ["a.py"] else [])
          ++ (processList ⟨["*"], [], false, false⟩ []).2.1)
    ∧ (∀ p ∈ ([] : List String) ++ default_excludes,
        fnmatch "a.py" p = true
          → matchesFilter ⟨["*"], [], false, false⟩ "a.py" = false) :=
  included_iff_filter ⟨["*"], [], false, false⟩ [] []
    ⟨"a.py", "a.py", some "hi"⟩ "hi" rfl (by decide) (by decide)

/-- C2 as stated is false: this file's content holds a secret-like token
under the heuristic (a 32-character alphanumeric run), `no_skip` is unset,
yet aggregation includes the file and skips nothing, because the content
lacks the literal substring `API_KEY`. -/
theorem secret_skip_cex :
    has_api_key "abcdefghijklmnopqrstuvwxyz012345" = true
    ∧ (processList ⟨["*"], [], false, false⟩
        [⟨"k.txt", "k.txt", some "abcdefghijklmnopqrstuvwxyz012345"⟩]).2.2
        = []
    ∧ (processList ⟨["*"], [], false, false⟩
        [⟨"k.txt", "k.txt", some "abcdefghijklmnopqrstuvwxyz012345"⟩]).2.1
        = ["k.txt"] := by
  decide

/-- C2 (amended): for a file that passes the filter and the empty-file
check and whose content contains both the literal substring `API_KEY` and a
secret-like token under the heuristic, aggregation skips the file
(recording it in the skipped list with the reason message and contributing
nothing to the output or the included list) when `no_skip` is unset, and
includes it when `no_skip` is set. -/
theorem secret_skip (cfg : Config) (l1 l2 : List WalkFile) (w : WalkFile)
    (c : String) (hc : w.content = some c)
    (hm : matchesFilter cfg w.rel = true)
    (hne : (cfg.ignore_empty_files && isBlank c) = false)
    (hsec : (containsSubstr apiKeyLit c && has_api_key c) = true) :
    (cfg.no_skip = false →
      processList cfg (l1 ++ w :: l2)
        = ((processList cfg l1).1 ++ (processList cfg l2).1,
           (processList cfg l1).2.1 ++ (processList cfg l2).2.1,
           (processList cfg l1).2.2
             ++ ([w.rel ++ skipMsg] ++ (processList cfg l2).2.2)))
    ∧ (cfg.no_skip = true →
      (processList cfg (l1 ++ w :: l2)).2.1
        = (processList cfg l1).2.1 ++ ([w.rel] ++ (processList cfg l2).2.1)) := by
  constructor
  · intro hskip
    have hw : contribution cfg w = ([], [], [w.rel ++ skipMsg]) := by
      simp [contribution, hm, hc, hne, hsec, hskip]
    rw [processList_append, processList_cons, hw]
    simp
  · intro hskip
    have hw : (contribution cfg w).2.1 = [w.rel] := by
      simp [contribution, hm, hc, hne, hsec, hskip]
    rw [processList_append, processList_cons]
    simp [hw]

/-- Witness for `secret_skip` at a concrete input. -/
theorem secret_skip_witness :
    processList ⟨["*"], [], false, false⟩
        ([] ++ (⟨"k.txt", "k.txt",
            some "API_KEY=abcdefghijklmnopqrstuvwxyz012345"⟩ : WalkFile) :: [])
      = ((processList ⟨["*"], [], false, false⟩ []).1
           ++ (processList ⟨["*"], [], false, false⟩ []).1,
         (processList ⟨["*"], [], false, false⟩ []).2.1
           ++ (processList ⟨["*"], [], false, false⟩ []).2.1,
         (processList ⟨["*"], [], false, false⟩ []).2.2
           ++ (["k.txt" ++ skipMsg]
             ++ (processList ⟨["*"], [], false, false⟩ []).2.2)) :=
  (secret_skip ⟨["*"], [], false, false⟩ [] []
      ⟨"k.txt", "k.txt", some "API_KEY=abcdefghijklmnopqrstuvwxyz012345"⟩
      "API_KEY=abcdefghijklmnopqrstuvwxyz012345" rfl (by decide) (by decide)
      (by decide)).1 rfl

/-- C8: a file is recorded as skipped for secret exposure only when its
content holds the literal substring `API_KEY`: a file whose content has a
secret-like token but lacks that substring contributes nothing to the
skipped list, and (when it passes the filter and the empty-file check) is
included normally. -/
theorem skip_requires_api_key_lit (cfg : Config) (l1 l2 : List WalkFile)
    (w : WalkFile) (c : String) (hc : w.content = some c)
    (hkey : has_api_key c = true)
    (hno : containsSubstr apiKeyLit c = false) :
    ((processList cfg (l1 ++ w :: l2)).2.2
      = (processList cfg l1).2.2 ++ (processList cfg l2).2.2)
    ∧ (matchesFilter cfg w.rel = true
        → (cfg.ignore_empty_files && isBlank c) = false
        → (processList cfg (l1 ++ w :: l2)).2.1
          = (processList cfg l1).2.1 ++ ([w.rel] ++ (processList cfg l2).2.1)) := by
  constructor
  · have hw : (contribution cfg w).2.2 = [] := by
      by_cases hm : matchesFilter cfg w.rel = true
      · by_cases he : (cfg.ignore_empty_files && isBlank c) = true
        · simp [contribution, hm, hc, he]
        · simp only [Bool.not_eq_true] at he
          simp [contribution, hm, hc, he, hno]
      · simp only [Bool.not_eq_true] at hm
        simp [contribution, hm]
    rw [processList_append, processList_cons, hw]
    simp
  · intro hm hne
    have hw : (contribution cfg w).2.1 = [w.rel] := by
      simp [contribution, hm, hc, hne, hno]
    rw [processList_append, processList_cons]
    simp [hw]

/-- Witness for `skip_requires_api_key_lit` at a concrete input. -/
theorem skip_requires_api_key_lit_witness :
    ((processList ⟨["*"], [], false, false⟩
        ([] ++ (⟨"k.txt", "k.txt",
            some "abcdefghijklmnopqrstuvwxyz012345"⟩ : WalkFile) :: [])).2.2
      = (processList ⟨["*"], [], false, false⟩ []).2.2
          ++ (processList ⟨["*"], [], false, false⟩ []).2.2)
    ∧ (matchesFilter ⟨["*"], [], false, false⟩ "k.txt" = true
        → (Bool.false && isBlank "abcdefghijklmnopqrstuvwxyz012345") = false
        → (processList ⟨["*"], [], false, false⟩
            ([] ++ (⟨"k.txt", "k.txt",
                some "abcdefghijklmnopqrstuvwxyz012345"⟩ : WalkFile) :: [])).2.1
          = (processList ⟨["*"], [], false, false⟩ []).2.1
              ++ (["k.txt"]
                ++ (processList ⟨["*"], [], false, false⟩ []).2.1)) :=
  skip_requires_api_key_lit ⟨["*"], [], false, false⟩ [] []
    ⟨"k.txt", "k.txt", some "abcdefghijklmnopqrstuvwxyz012345"⟩
    "abcdefghijklmnopqrstuvwxyz012345" rfl (by decide) (by decide)

/-- C4: an included file contributes exactly the blocks header, payload,
separator; the payload is the content wrapped in triple-backtick fences
exactly when the file name ends with one of the recognized code extensions,
and is the bare content for any other name. -/
theorem fenced_iff_code_ext (cfg : Config) (l1 l2 : List WalkFile)
    (w : WalkFile) (c : String) (hc : w.content = some c)
    (hm : matchesFilter cfg w.rel = true)
    (hne : (cfg.ignore_empty_files && isBlank c) = false)
    (hns : (containsSubstr apiKeyLit c && has_api_key c && !cfg.no_skip)
        = false) :
    ((processList cfg (l1 ++ w :: l2)).1
      = (processList cfg l1).1
          ++ ([mkHeader w.rel, payloadOf w.name c, ""]
            ++ (processList cfg l2).1))
    ∧ (payloadOf w.name c = "```\n" ++ c ++ "\n```"
        ↔ code_extensions.any (fun ext => w.name.endsWith ext) = true)
    ∧ (code_extensions.any (fun ext => w.name.endsWith ext) = false
        → payloadOf w.name c = c) := by
  refine ⟨?_, ?_, ?_⟩
  · have hw : (contribution cfg w).1
        = [mkHeader w.rel, payloadOf w.name c, ""] := by
      simp [contribution, hm, hc, hne, hns]
    rw [processList_append, processList_cons, hw]
  · by_cases hext : code_extensions.any (fun ext => w.name.endsWith ext) = true
    · simp [payloadOf, hext]
    · have hfalse : code_extensions.any (fun ext => w.name.endsWith ext)
          = false := by
        simp only [Bool.not_eq_true] at hext
        exact hext
      simp only [payloadOf, hfalse, Bool.false_eq_true, if_false]
      constructor
      · intro hp
        exact absurd hp.symm (fence_ne c)
      · intro hx
        exact absurd hfalse (by simp [hx])
  · intro hext
    simp [payloadOf, hext]

/-- Witness for `fenced_iff_code_ext` at a concrete input. -/
theorem fenced_iff_code_ext_witness :
    ((processList ⟨["*"], [], false, false⟩
        ([] ++ (⟨"a.py", "a.py", some "x = 1"⟩ : WalkFile) :: [])).1
      = (processList ⟨["*"], [], false, false⟩ []).1
          ++ ([mkHeader "a.py", payloadOf "a.py" "x = 1", ""]
            ++ (processList ⟨["*"], [], false, false⟩ []).1))
    ∧ (payloadOf "a.py" "x = 1" = "```\n" ++ "x = 1" ++ "\n```"
        ↔ code_extensions.any (fun ext => String.endsWith "a.py" ext) = true)
    ∧ (code_extensions.any (fun ext => String.endsWith "a.py" ext) = false
        → payloadOf "a.py" "x = 1" = "x = 1") :=
  fenced_iff_code_ext ⟨["*"], [], false, false⟩ [] []
    ⟨"a.py", "a.py", some "x = 1"⟩ "x = 1" rfl (by decide) (by decide)
    (by decide)

/-- C10: when the walked relative paths are distinct (as they are for a
real file system), the included list collects exactly the relative paths of
the files reaching the inclusion branch, the skipped list exactly the
reason-tagged paths of the files reaching the secret-skip branch, the
result is the in-order concatenation of one header-payload-separator block
per included file (exactly one header per included file, in list order),
and no relative path is recorded both as included and as skipped. -/
theorem lists_disjoint_one_header (cfg : Config) (l : List WalkFile)
    (hnd : (l.map (fun w => w.rel)).Nodup) :
    ((processList cfg l).2.1 = (l.filter (includedB cfg)).map (fun w => w.rel))
    ∧ ((processList cfg l).2.2
        = (l.filter (secretSkipB cfg)).map (fun w => w.rel ++ skipMsg))
    ∧ ((processList cfg l).1 = (l.filter (includedB cfg)).flatMap blockOf)
    ∧ (∀ w ∈ l.filter (includedB cfg),
        blockOf w
          = [mkHeader w.rel, payloadOf w.name (w.content.getD ""), ""])
    ∧ (∀ r ∈ (processList cfg l).2.1,
        ∀ w ∈ l.filter (secretSkipB cfg), r ≠ w.rel) := by
  refine ⟨processList_inc_eq cfg l, processList_skp_eq cfg l,
    processList_res_eq cfg l, ?_, ?_⟩
  · intro w hw
    have hinc : includedB cfg w = true := (List.mem_filter.mp hw).2
    obtain ⟨rel, name, content⟩ := w
    cases content with
    | none => simp [includedB] at hinc
    | some c => simp [blockOf]
  · intro r hr w hw hrw
    rw [processList_inc_eq] at hr
    obtain ⟨w1, hw1, hw1r⟩ := List.mem_map.mp hr
    have hw1l : w1 ∈ l := (List.mem_filter.mp hw1).1
    have hw1i : includedB cfg w1 = true := (List.mem_filter.mp hw1).2
    have hwl : w ∈ l := (List.mem_filter.mp hw).1
    have hws : secretSkipB cfg w = true := (List.mem_filter.mp hw).2
    have heq : w1 = w :=
      List.inj_on_of_nodup_map hnd hw1l hwl (by rw [hw1r, hrw])
    exact not_included_and_secretSkip cfg w ⟨heq ▸ hw1i, hws⟩

/-- Witness for `lists_disjoint_one_header` at a concrete input. -/
theorem lists_disjoint_one_header_witness :
    ((processList ⟨["*"], ["*.md"], false, false⟩
        [⟨"a.py", "a.py", some "x"⟩, ⟨"r.md", "r.md", some "y"⟩]).2.1
      = (List.filter (includedB ⟨["*"], ["*.md"], false, false⟩)
          [⟨"a.py", "a.py", some "x"⟩, ⟨"r.md", "r.md", some "y"⟩]).map
            (fun w => w.rel))
    ∧ ((processList ⟨["*"], ["*.md"], false, false⟩
        [⟨"a.py", "a.py", some "x"⟩, ⟨"r.md", "r.md", some "y"⟩]).2.2
      = (List.filter (secretSkipB ⟨["*"], ["*.md"], false, false⟩)
          [⟨"a.py", "a.py", some "x"⟩, ⟨"r.md", "r.md", some "y"⟩]).map
            (fun w => w.rel ++ skipMsg))
    ∧ ((processList ⟨["*"], ["*.md"], false, false⟩
        [⟨"a.py", "a.py", some "x"⟩, ⟨"r.md", "r.md", some "y"⟩]).1
      = (List.filter (includedB ⟨["*"], ["*.md"], false, false⟩)
          [⟨"a.py", "a.py", some "x"⟩, ⟨"r.md", "r.md", some "y"⟩]).flatMap
            blockOf)
    ∧ (∀ w ∈ List.filter (includedB ⟨["*"], ["*.md"], false, false⟩)
          [⟨"a.py", "a.py", some "x"⟩, ⟨"r.md", "r.md", some "y"⟩],
        blockOf w
          = [mkHeader w.rel, payloadOf w.name (w.content.getD ""), ""])
    ∧ (∀ r ∈ (processList ⟨["*"], ["*.md"], false, false⟩
          [⟨"a.py", "a.py", some "x"⟩, ⟨"r.md", "r.md", some "y"⟩]).2.1,
        ∀ w ∈ List.filter (secretSkipB ⟨["*"], ["*.md"], false, false⟩)
          [⟨"a.py", "a.py", some "x"⟩, ⟨"r.md", "r.md", some "y"⟩],
        r ≠ w.rel) :=
  lists_disjoint_one_header ⟨["*"], ["*.md"], false, false⟩
    [⟨"a.py", "a.py", some "x"⟩, ⟨"r.md", "r.md", some "y"⟩] (by decide)

end Promptify
